import Mathlib

/-!
Verification of the dual-sink tracing pipeline of rust-trace-minimum
(src/src/main.rs) against its specification.

The repository's own source is the pipeline configuration and the two HTTP
handlers in main.rs; the pipeline mechanics (layer filtering, span scoping,
instrumented futures, the sampler) live in the tracing / tracing-subscriber /
opentelemetry crates.  Definitions below that embed configuration or handler
logic cite the main.rs lines; definitions whose code is in those external
crates are modelled from the spec and say so in their doc comment.
-/

namespace TraceMin

/-- Severity levels, ordered TRACE < DEBUG < INFO < WARN < ERROR
(tracing_core::Level, spec section 3). -/
inductive Level where
  | TRACE
  | DEBUG
  | INFO
  | WARN
  | ERROR
  deriving DecidableEq, Repr

/-- Numeric rank of a severity level, used for the order. -/
def Level.toNat : Level → Nat
  | .TRACE => 0
  | .DEBUG => 1
  | .INFO => 2
  | .WARN => 3
  | .ERROR => 4

instance : LE Level := ⟨fun a b => a.toNat ≤ b.toNat⟩

instance : LT Level := ⟨fun a b => a.toNat < b.toNat⟩

instance (a b : Level) : Decidable (a ≤ b) :=
  inferInstanceAs (Decidable (a.toNat ≤ b.toNat))

instance (a b : Level) : Decidable (a < b) :=
  inferInstanceAs (Decidable (a.toNat < b.toNat))

/-- A tracing-subscriber layer as configured in main.rs: its optional per-layer
severity filter (`with_filter(LevelFilter)`); `none` means the layer has no
per-layer filter attached. -/
structure SinkLayer where
  filterThreshold : Option Level
  deriving DecidableEq, Repr

/-- The global minimum-severity gate: main.rs line 49,
`LevelFilter::from_level(Level::INFO)` attached directly to the registry. -/
def globalGate : Level := Level.INFO

/-- The stdout sink: main.rs line 52, `fmt::layer().with_filter(LevelFilter::WARN)`. -/
def fmtLayer : SinkLayer := ⟨some Level.WARN⟩

/-- The OpenTelemetry sink: main.rs line 55, `OpenTelemetryLayer::new(tracer)`
with no `with_filter` call, hence no per-layer filter. -/
def otelLayer : SinkLayer := ⟨none⟩

/-- Whether a layer's own filter lets a severity through: a layer without a
filter accepts everything. -/
def layerEnabled (l : SinkLayer) (sev : Level) : Bool :=
  match l.filterThreshold with
  | none => true
  | some t => decide (t ≤ sev)

/-- Whether an event of the given severity reaches a layer: it must pass the
registry's global gate and then the layer's own filter (main.rs lines 47-56). -/
def receives (l : SinkLayer) (sev : Level) : Bool :=
  decide (globalGate ≤ sev) && layerEnabled l sev

/-! ## Span Tracker: task-local current-span context

Modelled from the spec (sections 4.2 and 5): the tracing and tokio crates
holding this code are not part of this repository's source.  The current-span
context is keyed by the logical task, never by the worker thread; `startSpan`
still takes the worker thread executing it as an argument so that
thread-independence is a statement, not a convention. -/

/-- A recorded span: its identity, name, and the identity of its parent span
(the span that was current for the creating task), if any. -/
structure SpanRecord where
  sid : Nat
  name : String
  parentSid : Option Nat
  deriving DecidableEq, Repr

/-- Span Tracker state: the next fresh span id, all records so far, and the
task-local context — each logical task's stack of currently open span ids. -/
structure TrackerState where
  nextSid : Nat
  records : List SpanRecord
  current : Nat → List Nat

/-- Modelled from the spec: starting a span on a logical task, executed by some
worker thread.  The new span's parent is the creating task's current span; the
new span becomes current for that task.  The executing thread plays no role. -/
def startSpan (ts : TrackerState) (task : Nat) (_thread : Nat) (name : String) :
    SpanRecord × TrackerState :=
  let sp : SpanRecord := ⟨ts.nextSid, name, (ts.current task).head?⟩
  (sp,
    { nextSid := ts.nextSid + 1
      records := sp :: ts.records
      current := fun t => if t = task then sp.sid :: ts.current t else ts.current t })

/-- Modelled from the spec: closing the current span of a task detaches it and
restores the previously current span (stack discipline). -/
def closeSpan (ts : TrackerState) (task : Nat) : TrackerState :=
  { ts with current := fun t => if t = task then (ts.current t).tail else ts.current t }

/-- Modelled from the spec: `Span::in_scope` (used at main.rs lines 90-92) —
enter the span, run the synchronous block, exit the span via a drop guard on
every exit path.  The block observes the tracker state with the span entered
and produces a result that may be a success or an error; the guard closes the
span either way. -/
def inScope (ts : TrackerState) (task : Nat) (thr : Nat) (name : String)
    (body : TrackerState → Except String α) : Except String α × TrackerState :=
  let (_, ts1) := startSpan ts task thr name
  (body ts1, closeSpan ts1 task)

/-! ## Instrumented futures

Modelled from the spec (section 4.2, asynchronous wrap): `Instrument::instrument`
(used at main.rs lines 95-98 and 113-116) wraps a future so that every poll of
the inner future runs with the span entered, and the span closes only when the
inner future completes. -/

/-- One poll outcome of the inner future: it either yields control (pending)
or completes with a final value (ready). -/
inductive Poll (α : Type) where
  | pending
  | ready (a : α)
  deriving DecidableEq, Repr

/-- Observable state of an instrumented future's span: how many times it was
entered and exited (one each per poll), and whether it has been closed. -/
structure InstrState where
  enterCount : Nat
  exitCount : Nat
  spanClosed : Bool
  deriving DecidableEq, Repr

/-- Modelled from the spec: one poll of the instrumented future — enter the
span, poll the inner future, exit the span; close the span only if the inner
future completed. -/
def pollOnce (s : InstrState) (p : Poll α) : InstrState :=
  let s' := { s with enterCount := s.enterCount + 1, exitCount := s.exitCount + 1 }
  match p with
  | .pending => s'
  | .ready _ => { s' with spanClosed := true }

/-- Run the instrumented future through a sequence of inner-future poll
outcomes, stopping at the first completion. -/
def runInstr (s : InstrState) : List (Poll α) → InstrState
  | [] => s
  | p :: ps =>
    match p with
    | .ready a => pollOnce s (.ready a)
    | .pending => runInstr (pollOnce s (Poll.pending : Poll α)) ps

/-! ## Span timing -/

/-- A span's status (spec section 3). -/
inductive SpanStatus where
  | unset
  | ok
  | error
  deriving DecidableEq, Repr

/-- A span's timing record: its start time, its end time (absent until the
span is closed), and its status. -/
structure TimedSpan where
  startTime : Nat
  endTime : Option Nat
  status : SpanStatus
  deriving DecidableEq, Repr

/-- Modelled from the spec: creating a span stamps the current time as its
start time; it has no end time yet. -/
def openSpanAt (t : Nat) : TimedSpan := ⟨t, none, .unset⟩

/-- Modelled from the spec: closing a span records the current time as its end
time and sets its status; closing a span that already has an end time is a
no-op and never records a second end time. -/
def closeTimed (sp : TimedSpan) (now : Nat) (st : SpanStatus) : TimedSpan :=
  match sp.endTime with
  | some _ => sp
  | none => { sp with endTime := some now, status := st }

/-! ## Event dispatch across the sink chain -/

/-- A structured log event: severity and message (spec section 3). -/
structure Event where
  severity : Level
  message : String
  deriving DecidableEq, Repr

/-- A registered sink: its identifier, optional per-sink threshold, and its
handling function, which may fail internally. -/
structure Sink where
  sinkId : String
  threshold : Option Level
  handle : Event → Except String Unit

/-- Whether a sink's own filter lets an event through. -/
def sinkEnabled (s : Sink) (e : Event) : Bool :=
  match s.threshold with
  | none => true
  | some t => decide (t ≤ e.severity)

/-- Result of dispatching one event: which sinks the event was handed to, and
the last-resort fallback log of swallowed internal sink errors.  There is no
error component: dispatch cannot fail visibly. -/
structure DispatchOut where
  delivered : List String
  fallback : List String
  deriving DecidableEq, Repr

/-- Modelled from the spec (section 4.1): handling of one sink during
dispatch — if the sink's filter passes, the event is handed to the sink; an
internal handler failure is appended to the fallback log and swallowed. -/
def dispatchStep (e : Event) (s : Sink) (acc : DispatchOut) : DispatchOut :=
  if sinkEnabled s e then
    match s.handle e with
    | .ok _ => { acc with delivered := s.sinkId :: acc.delivered }
    | .error msg => ⟨s.sinkId :: acc.delivered, msg :: acc.fallback⟩
  else acc

/-- Modelled from the spec (section 4.1): dispatch hands the event to every
registered sink that passes the global gate and the sink's own filter; a
failure inside one sink's handling is logged to the fallback stream and
swallowed, and the walk over the remaining sinks continues.  Dispatch returns
no error to the emitting caller. -/
def dispatch (gate : Level) (sinks : List Sink) (e : Event) : DispatchOut :=
  if gate ≤ e.severity then sinks.foldr (dispatchStep e) ⟨[], []⟩ else ⟨[], []⟩

/-! ## Handler embeddings -/

/-- Shallow embedding of `.instrument(info_span!(..))` applied to a fallible
call (main.rs lines 95-99 and 113-116): the wrapped call's result is returned
to the awaiting caller unchanged; attaching the span is side-effecting only. -/
def instrumentCall (name : String) (r : Except String α) : String × Except String α :=
  (name, r)

/-- What a handler run produces: the returned body, the events it emitted, the
database result that the handler's own code observed, and the final status of
the handler's span. -/
structure HandlerRun where
  body : String
  events : List Event
  observed : Except String Unit
  spanStatus : SpanStatus
  deriving Repr

/-- Modelled from the spec (section 7(c)): the tracing-opentelemetry layer
closes a span with error status when a severity-ERROR event is recorded in it;
otherwise the status is left unset. -/
def spanStatusOfEvents (evs : List Event) : SpanStatus :=
  if evs.any fun e => e.severity = Level.ERROR then .error else .unset

/-- Shallow embedding of the `cause_error` handler (main.rs lines 104-127),
parametrised by the database query's outcome: it emits an INFO then a WARN
event, awaits the instrumented query, matches on the regular result and emits
a severity-ERROR event if the query failed, then returns "ok". -/
def cause_error (db : Except String Unit) : HandlerRun :=
  let evs0 : List Event := [⟨.INFO, "Processing request"⟩, ⟨.WARN, "possible error"⟩]
  let rs := (instrumentCall "fetch row" db).2
  let evs := evs0 ++
    match rs with
    | .ok _ => []
    | .error e => [⟨.ERROR, "Error: " ++ e⟩]
  ⟨"ok", evs, rs, spanStatusOfEvents evs⟩

/-- Outcome of the `root` handler: a normal return, or a panic aborting the
handler (Rust `expect` on an `Err`).  There is no error-result constructor
because the handler's return type is a plain string. -/
inductive RootOutcome where
  | ok (body : String)
  | panicked (msg : String)
  deriving DecidableEq, Repr

/-- Shallow embedding of the `root` handler (main.rs lines 83-102),
parametrised by the outcomes of the wrapped bcrypt call and the database
query: the bcrypt result is discarded, and the instrumented query result is
unwrapped with `expect("Failed to fetch row")`, so an `Err` panics instead of
being returned. -/
def root (hashRes : Except String String) (db : Except String Unit) : RootOutcome :=
  let _ := hashRes
  match (instrumentCall "fetch row" db).2 with
  | .ok _ => .ok "ok"
  | .error e => .panicked ("Failed to fetch row: " ++ e)

/-! ## Sampling -/

/-- The configured sampling rate: main.rs line 34,
`Sampler::TraceIdRatioBased(1.0)`. -/
def configuredSamplingRate : ℚ := 1

/-- Modelled from the spec (section 4.3): the trace-id-based probabilistic
root decision — sample a root span iff the trace id's lower 63 bits fall below
the configured fraction of the id space. -/
def traceIdRateBased (rate : ℚ) (tid : Nat) : Bool :=
  decide (((tid % 2 ^ 63 : Nat) : ℚ) < rate * 2 ^ 63)

/-- Modelled from the spec: the parent-based sampler configured at main.rs
line 34 — a root span (no parent decision) gets the probabilistic decision,
and every child span inherits its parent's decision unchanged. -/
def parentBased (rate : ℚ) (tid : Nat) : Option Bool → Bool
  | none => traceIdRateBased rate tid
  | some d => d

/-- The sampling decision of a span at the given depth in a trace: depth 0 is
the root; a span at depth n+1 has the span at depth n as its parent. -/
def decisionAtDepth (rate : ℚ) (tid : Nat) : Nat → Bool
  | 0 => parentBased rate tid none
  | n + 1 => parentBased rate tid (some (decisionAtDepth rate tid n))

/-- The always-failing sink of the C7 scenario: its per-sink threshold is WARN
and its handler always reports an internal rendering failure. -/
def failingSink : Sink := ⟨"stdout", some Level.WARN, fun _ => Except.error "render failed"⟩

/-- The always-succeeding sink of the C7 scenario, with no per-sink filter. -/
def okSink : Sink := ⟨"otel", none, fun _ => Except.ok ()⟩

/-! ## Theorems -/

/-- C1: for every severity, a sink receives an event iff the severity passes
both the global gate and the sink's own threshold (global = INFO, stdout =
WARN, OpenTelemetry = INFO); concretely an INFO event reaches the
OpenTelemetry sink but not stdout, and a WARN event reaches both. -/
theorem sink_visibility_iff (sev : Level) :
    (receives fmtLayer sev = true ↔ globalGate ≤ sev ∧ Level.WARN ≤ sev)
    ∧ (receives otelLayer sev = true ↔ globalGate ≤ sev ∧ Level.INFO ≤ sev)
    ∧ receives otelLayer Level.INFO = true
    ∧ receives fmtLayer Level.INFO = false
    ∧ receives fmtLayer Level.WARN = true
    ∧ receives otelLayer Level.WARN = true := by
  cases sev <;> exact ⟨by decide, by decide, by decide, by decide, by decide, by decide⟩

/-- C9: the OpenTelemetry layer carries no per-sink severity filter, so its
effective threshold is exactly the global gate (INFO): every event passing the
global gate is forwarded to it, while the stdout layer does carry a distinct
filter. -/
theorem otel_sink_no_filter :
    otelLayer.filterThreshold = none
    ∧ fmtLayer.filterThreshold = some Level.WARN
    ∧ globalGate = Level.INFO
    ∧ ∀ sev : Level, receives otelLayer sev = decide (globalGate ≤ sev) := by
  refine ⟨rfl, rfl, rfl, fun sev => ?_⟩
  cases sev <;> decide

/-- C2: the current-span context is task-local, not thread-local: starting a
span reads only the creating task's context, so its result is identical on any
two worker threads and the new span's parent is the task's current span; in
the concrete scenario where span P is started by a task on one thread and,
after a suspension, child span C is started by the same task resumed on a
different thread, C's recorded parent is P's identity. -/
theorem span_context_task_local (ts : TrackerState) (task th1 th2 : Nat) (nm : String) :
    startSpan ts task th1 nm = startSpan ts task th2 nm
    ∧ (startSpan ts task th1 nm).1.parentSid = (ts.current task).head?
    ∧ (let ts0 : TrackerState := ⟨0, [], fun _ => []⟩
       let p := (startSpan ts0 37 1 "P").1
       let ts1 := (startSpan ts0 37 1 "P").2
       let c := (startSpan ts1 37 2 "C").1
       c.parentSid = some p.sid) :=
  ⟨rfl, rfl, rfl⟩

/-- C4: a scoped synchronous wrap brackets the block exactly: the block runs
in a state where the new span has been entered on top of the task's context,
the block's result — success or error alike — is returned unchanged, and the
span is closed, restoring the task's previous context, on every exit path. -/
theorem in_scope_brackets (ts : TrackerState) (task thr : Nat) (nm : String)
    (body : TrackerState → Except String α) :
    ((startSpan ts task thr nm).2.current task
        = (startSpan ts task thr nm).1.sid :: ts.current task)
    ∧ (inScope ts task thr nm body).1 = body (startSpan ts task thr nm).2
    ∧ (inScope ts task thr nm body).2.current task = ts.current task := by
  refine ⟨?_, rfl, ?_⟩ <;> simp [startSpan, inScope, closeSpan]

/-- A run of inner-future polls that all yield control attributes each poll to
the span without closing it. -/
theorem runInstr_all_pending {α : Type} (polls : List (Poll α)) (s : InstrState)
    (h : ∀ p ∈ polls, p = Poll.pending) :
    runInstr s polls =
      { s with enterCount := s.enterCount + polls.length,
               exitCount := s.exitCount + polls.length } := by
  induction polls generalizing s with
  | nil => simp [runInstr]
  | cons p ps ih =>
    have hp : p = Poll.pending := h p (List.mem_cons_self _ _)
    subst hp
    rw [runInstr, ih (pollOnce s (Poll.pending : Poll α))
      (fun q hq => h q (List.mem_cons_of_mem _ hq))]
    simp only [pollOnce, List.length_cons]
    refine congrArg₂ (fun a b => InstrState.mk a b s.spanClosed) ?_ ?_ <;> omega

/-- C5: every suspension and resumption of instrumented asynchronous work is
attributed to the span (one enter and one exit per poll), and the span closes
only when the inner future completes: a run of polls that all merely yield
leaves the span exactly as open as before, while a completing poll — success
or failure value alike — closes it. -/
theorem instrument_closes_only_on_completion {α : Type} (s : InstrState)
    (polls : List (Poll α)) (h : ∀ p ∈ polls, p = Poll.pending) :
    (runInstr s polls).spanClosed = s.spanClosed
    ∧ (runInstr s polls).enterCount = s.enterCount + polls.length
    ∧ (runInstr s polls).exitCount = s.exitCount + polls.length
    ∧ ∀ a : α, (pollOnce s (Poll.ready a)).spanClosed = true
        ∧ (pollOnce s (Poll.ready a)).enterCount = s.enterCount + 1
        ∧ (pollOnce s (Poll.ready a)).exitCount = s.exitCount + 1 := by
  rw [runInstr_all_pending polls s h]
  exact ⟨rfl, rfl, rfl, fun a => ⟨rfl, rfl, rfl⟩⟩

/-- Witness for C5 at two yields and a completion. -/
theorem instrument_closes_only_on_completion_witness :
    (runInstr (⟨0, 0, false⟩ : InstrState)
        ([Poll.pending, Poll.pending] : List (Poll Nat))).spanClosed = false
    ∧ (pollOnce (⟨0, 0, false⟩ : InstrState) (Poll.ready (0 : Nat))).spanClosed = true := by
  have h := instrument_closes_only_on_completion (⟨0, 0, false⟩ : InstrState)
      ([Poll.pending, Poll.pending] : List (Poll Nat)) (by decide)
  exact ⟨h.1, (h.2.2.2 0).1⟩

/-- C6: a span's end time is at least its start time and is recorded exactly
once: closing an open span after it started stamps the close instant as the
end time, every recorded end time is ≥ the start time, and closing the span a
second time is a no-op that never records another end time. -/
theorem span_end_once (sp : TimedSpan) (now now2 : Nat) (st st2 : SpanStatus)
    (hopen : sp.endTime = none) (hmono : sp.startTime ≤ now) :
    (closeTimed sp now st).endTime = some now
    ∧ (∀ t, (closeTimed sp now st).endTime = some t → (closeTimed sp now st).startTime ≤ t)
    ∧ closeTimed (closeTimed sp now st) now2 st2 = closeTimed sp now st := by
  refine ⟨?_, ?_, ?_⟩ <;> (simp only [closeTimed, hopen]; try rfl)
  intro t ht
  simp only [Option.some.injEq] at ht
  subst ht
  exact hmono

/-- Witness for C6 on a span opened at 5 and closed at 7, reclosed at 9. -/
theorem span_end_once_witness :
    (closeTimed (openSpanAt 5) 7 SpanStatus.ok).endTime = some 7
    ∧ closeTimed (closeTimed (openSpanAt 5) 7 SpanStatus.ok) 9 SpanStatus.error
        = closeTimed (openSpanAt 5) 7 SpanStatus.ok := by
  have h := span_end_once (openSpanAt 5) 7 9 SpanStatus.ok SpanStatus.error rfl (by decide)
  exact ⟨h.1, h.2.2⟩

/-- One dispatch step never removes an already delivered sink. -/
theorem dispatchStep_mem (e : Event) (a : Sink) (acc : DispatchOut) (x : String)
    (hx : x ∈ acc.delivered) : x ∈ (dispatchStep e a acc).delivered := by
  simp only [dispatchStep]
  split
  · split <;> exact List.mem_cons_of_mem _ hx
  · exact hx

/-- Every enabled sink in the chain is delivered to by the dispatch fold,
whatever the other sinks' handlers do. -/
theorem foldr_dispatch_mem (e : Event) (sinks : List Sink) (s : Sink)
    (hmem : s ∈ sinks) (hs : sinkEnabled s e = true) :
    s.sinkId ∈ (sinks.foldr (dispatchStep e) ⟨[], []⟩).delivered := by
  induction sinks with
  | nil => cases hmem
  | cons a rest ih =>
    rw [List.foldr_cons]
    rcases List.mem_cons.mp hmem with h | h
    · subst h
      simp only [dispatchStep, hs, if_true]
      split <;> exact List.mem_cons_self _ _
    · exact dispatchStep_mem e a _ _ (ih h)

/-- C7: a failure inside one sink's handling neither prevents delivery of the
event to the other sinks nor reaches the emitting caller: every sink passing
the gates receives the event regardless of any handler failures, and in the
concrete chain whose first sink always fails, the second sink still receives
the event while the failure goes only to the last-resort fallback log. -/
theorem dispatch_isolated (gate : Level) (sinks : List Sink) (e : Event) (s : Sink)
    (hmem : s ∈ sinks) (hgate : gate ≤ e.severity) (hs : sinkEnabled s e = true) :
    s.sinkId ∈ (dispatch gate sinks e).delivered
    ∧ dispatch Level.INFO [failingSink, okSink] ⟨Level.WARN, "m"⟩
        = ⟨["stdout", "otel"], ["render failed"]⟩ := by
  refine ⟨?_, rfl⟩
  simp only [dispatch, if_pos hgate]
  exact foldr_dispatch_mem e sinks s hmem hs

/-- Witness for C7 on the two-sink chain with a failing first sink. -/
theorem dispatch_isolated_witness :
    okSink.sinkId ∈ (dispatch Level.INFO [failingSink, okSink] ⟨Level.WARN, "m"⟩).delivered := by
  have h := dispatch_isolated Level.INFO [failingSink, okSink] ⟨Level.WARN, "m"⟩ okSink
      (List.mem_cons_of_mem _ (List.mem_cons_self _ _)) (by decide) (by rfl)
  exact h.1

/-- C3: a failing instrumented call surfaces its error to the awaiting caller
as a regular error result — the result is identical with or without the
attached span, so the pipeline never turns a success into a failure or a
failure into a success — and, in the cause_error handler, the failure
additionally produces a severity-ERROR event and closes the handler's span
with error status. -/
theorem instrumented_failure_surfaced (db : Except String Unit) :
    (instrumentCall "fetch row" db).2 = db
    ∧ (cause_error db).observed = db
    ∧ (cause_error db).body = "ok"
    ∧ ∀ e, db = Except.error e →
        ((cause_error db).events.any fun ev => ev.severity = Level.ERROR) = true
        ∧ (cause_error db).spanStatus = SpanStatus.error := by
  refine ⟨rfl, rfl, rfl, fun e he => ?_⟩
  subst he
  constructor <;> simp [cause_error, instrumentCall, spanStatusOfEvents]

/-- Witness for C3 at a concrete failing query. -/
theorem instrumented_failure_surfaced_witness :
    ((cause_error (Except.error "SQL SYNTAX ERROR")).events.any
        fun ev => ev.severity = Level.ERROR) = true
    ∧ (cause_error (Except.error "SQL SYNTAX ERROR")).spanStatus = SpanStatus.error :=
  (instrumented_failure_surfaced (Except.error "SQL SYNTAX ERROR")).2.2.2 "SQL SYNTAX ERROR" rfl

/-- C10: in the root handler the instrumented query result is unwrapped with
expect, so a query error makes the handler panic — for every error the outcome
is the panicked abort, never a regular error result, and a normal return
happens only when the query succeeded. -/
theorem root_panics_on_query_error (hashRes : Except String String)
    (db : Except String Unit) (e : String) (b : String) :
    root hashRes (Except.error e) = RootOutcome.panicked ("Failed to fetch row: " ++ e)
    ∧ (root hashRes db = RootOutcome.ok b → db = Except.ok () ∧ b = "ok") := by
  refine ⟨rfl, fun hok => ?_⟩
  cases db with
  | ok u => cases u; cases hok; exact ⟨rfl, rfl⟩
  | error e' => cases hok

/-- Witness for C10 at a concrete failing and a concrete succeeding query. -/
theorem root_panics_on_query_error_witness :
    root (Except.ok "h") (Except.error "boom")
        = RootOutcome.panicked "Failed to fetch row: boom"
    ∧ ((Except.ok () : Except String Unit) = Except.ok () ∧ "ok" = "ok") :=
  ⟨(root_panics_on_query_error (Except.ok "h") (Except.ok ()) "boom" "ok").1,
   (root_panics_on_query_error (Except.ok "h") (Except.ok ()) "boom" "ok").2 rfl⟩

/-- C8: the sampling decision is made once per trace at the root span and is
inherited unchanged by every descendant span, the configured rate lies in
[0, 1], and with the configured rate of 1.0 every trace is exported at every
depth. -/
theorem sampling_once_per_trace (rate : ℚ) (tid n : Nat) :
    decisionAtDepth rate tid n = decisionAtDepth rate tid 0
    ∧ (0 ≤ configuredSamplingRate ∧ configuredSamplingRate ≤ 1)
    ∧ decisionAtDepth configuredSamplingRate tid n = true := by
  have hprop : ∀ r : ℚ, ∀ m : Nat, decisionAtDepth r tid m = decisionAtDepth r tid 0 := by
    intro r m
    induction m with
    | zero => rfl
    | succ k ih => exact ih
  have hone : decisionAtDepth configuredSamplingRate tid 0 = true := by
    simp only [decisionAtDepth, parentBased, traceIdRateBased, configuredSamplingRate,
      one_mul, decide_eq_true_eq]
    exact_mod_cast Nat.mod_lt tid (by positivity)
  exact ⟨hprop rate n, ⟨by norm_num [configuredSamplingRate], by norm_num [configuredSamplingRate]⟩,
    (hprop configuredSamplingRate n).trans hone⟩

end TraceMin
